import Mathlib

/-
Verification development for the tire simulation core
(rust/tire_core/src/lib.rs).

Modelling conventions:
* `f32` scalars are embedded as exact rationals (`ℚ`); IEEE rounding is not
  modelled.  Where non-finite float behaviour matters (the wear/thermal
  stepper), scalars are embedded as `FF`, rationals extended with `+∞`, `-∞`
  and `nan`, with the IEEE special-value rules for the operations the code
  uses.
* The single `f32` square root in the contact aggregator is abstracted as a
  parameter `sqrtFn : ℚ → ℚ`; theorems that depend on its behaviour assume
  only that it is non-negative on non-negative inputs.
* Raw C pointers are embedded as `Option` of index functions: `none` models a
  null pointer, `some a` a valid buffer with at least `count` readable
  entries (the documented caller contract).
-/

/-- The repository's `Vec3`: a 3-component vector.  Components are exact
rationals here (source: single-precision floats). -/
structure Vec3 where
  x : ℚ
  y : ℚ
  z : ℚ
deriving DecidableEq

/-- `Vec3::default()` — the all-zero vector. -/
def Vec3.zero : Vec3 := ⟨0, 0, 0⟩

/-- `Vec3::add`. -/
def Vec3.add (a b : Vec3) : Vec3 := ⟨a.x + b.x, a.y + b.y, a.z + b.z⟩

/-- `Vec3::sub`. -/
def Vec3.sub (a b : Vec3) : Vec3 := ⟨a.x - b.x, a.y - b.y, a.z - b.z⟩

/-- `Vec3::mul` (uniform scale by a scalar). -/
def Vec3.mul (a : Vec3) (k : ℚ) : Vec3 := ⟨a.x * k, a.y * k, a.z * k⟩

/-- `Vec3::cross`. -/
def Vec3.cross (a b : Vec3) : Vec3 :=
  ⟨a.y * b.z - a.z * b.y, a.z * b.x - a.x * b.z, a.x * b.y - a.y * b.x⟩

/-- The radicand of `Vec3::length`: `x*x + y*y + z*z`. -/
def Vec3.sqLength (v : Vec3) : ℚ := v.x * v.x + v.y * v.y + v.z * v.z

/-- `Vec3::length` relative to an abstract square-root function. -/
def Vec3.length (sqrtFn : ℚ → ℚ) (v : Vec3) : ℚ := sqrtFn v.sqLength

instance : Zero Vec3 := ⟨Vec3.zero⟩

instance : Add Vec3 := ⟨Vec3.add⟩

instance : AddCommMonoid Vec3 where
  add := Vec3.add
  zero := Vec3.zero
  add_assoc a b c := by
    show Vec3.add (Vec3.add a b) c = Vec3.add a (Vec3.add b c)
    simp [Vec3.add, add_assoc]
  zero_add a := by
    show Vec3.add Vec3.zero a = a
    simp [Vec3.add, Vec3.zero]
  add_zero a := by
    show Vec3.add a Vec3.zero = a
    simp [Vec3.add, Vec3.zero]
  add_comm a b := by
    show Vec3.add a b = Vec3.add b a
    simp [Vec3.add, add_comm]
  nsmul := nsmulRec
  nsmul_zero a := rfl
  nsmul_succ n a := rfl

theorem Vec3.add_eq_hadd (a b : Vec3) : a.add b = a + b := rfl

theorem Vec3.zero_eq_ofNat : Vec3.zero = 0 := rfl

theorem Vec3.sqLength_nonneg (v : Vec3) : 0 ≤ v.sqLength := by
  unfold Vec3.sqLength
  exact add_nonneg (add_nonneg (mul_self_nonneg _) (mul_self_nonneg _))
    (mul_self_nonneg _)

/-- The repository's `ContactAggregate` record. -/
structure ContactAggregate where
  total_force : Vec3
  total_torque : Vec3
  average_position : Vec3
  contact_area : ℚ
  max_pressure : ℚ
  weighted_grip : ℚ
deriving DecidableEq

/-- `ContactAggregate::default()` — every field zero (including
`weighted_grip`, since Rust's derived `Default` zeroes every float). -/
def ContactAggregate.default : ContactAggregate :=
  { total_force := Vec3.zero, total_torque := Vec3.zero,
    average_position := Vec3.zero, contact_area := 0,
    max_pressure := 0, weighted_grip := 0 }

/-- `tire_aggregate_contacts`.  Null pointers are `none`; a valid buffer is a
total index function (the code only reads indices `0 .. count-1`).  The
source's single accumulation loop updates four independent accumulators; it
is rendered here as one fold per accumulator, each fold body copied from the
corresponding update in the loop. -/
def tire_aggregate_contacts (sqrtFn : ℚ → ℚ)
    (points_ptr normals_ptr : Option (ℕ → Vec3))
    (forces_ptr grips_ptr : Option (ℕ → ℚ))
    (count : ℕ) (global_origin : Vec3) (stiffness : ℚ) : ContactAggregate :=
  match points_ptr, normals_ptr, forces_ptr, grips_ptr with
  | some points, some normals, some forces, some grips =>
      if count = 0 then ContactAggregate.default
      else
        let s := max stiffness 1
        let total_force := (List.range count).foldl
          (fun acc i =>
            let force_dir := (normals i).mul (forces i)
            acc.add ⟨force_dir.x * grips i, force_dir.y, force_dir.z * grips i⟩)
          Vec3.zero
        let average_position :=
          ((List.range count).foldl (fun acc i => acc.add (points i)) Vec3.zero).mul
            (1 / (count : ℚ))
        let contact_area := (List.range count).foldl
          (fun acc i => acc + forces i / s) 0
        let max_pressure := (List.range count).foldl
          (fun acc i => max acc (forces i)) 0
        let total_torque := (List.range count).foldl
          (fun acc i =>
            acc.add (((points i).sub global_origin).cross
              ((normals i).mul (forces i * grips i))))
          Vec3.zero
        let force_magnitude := total_force.length sqrtFn
        let weighted_grip :=
          if 0 < force_magnitude then
            (List.range count).foldl
              (fun acc i => acc + grips i * (forces i / force_magnitude)) 0
          else 1
        { total_force := total_force, total_torque := total_torque,
          average_position := average_position, contact_area := contact_area,
          max_pressure := max_pressure, weighted_grip := weighted_grip }
  | _, _, _, _ => ContactAggregate.default

/-- A concrete square root on ℚ, exact on perfect squares and non-negative
everywhere; used only to instantiate witnesses of sqrt-parametric theorems. -/
def ratSqrt (q : ℚ) : ℚ :=
  if q ≤ 0 then 0 else (Nat.sqrt q.num.toNat : ℚ) / (Nat.sqrt q.den : ℚ)

theorem ratSqrt_nonneg (q : ℚ) : 0 ≤ ratSqrt q := by
  unfold ratSqrt
  split
  · exact le_refl 0
  · positivity

/-- Folding addition over `List.range n` is the `Finset.range` sum. -/
theorem foldl_range_add {M : Type} [AddCommMonoid M] (f : ℕ → M) :
    ∀ (n : ℕ) (a : M),
      (List.range n).foldl (fun acc i => acc + f i) a
        = a + ∑ i in Finset.range n, f i := by
  intro n
  induction n with
  | zero => intro a; simp
  | succ n ih =>
      intro a
      rw [List.range_succ, List.foldl_append, Finset.sum_range_succ]
      simp only [List.foldl_cons, List.foldl_nil, ih, add_assoc]

/-- Characterisation of the running-maximum fold: the result dominates the
seed and every element, and is either the seed or one of the elements. -/
theorem foldl_range_max_spec (f : ℕ → ℚ) :
    ∀ (n : ℕ) (a : ℚ),
      a ≤ (List.range n).foldl (fun acc i => max acc (f i)) a
      ∧ (∀ i, i < n → f i ≤ (List.range n).foldl (fun acc i => max acc (f i)) a)
      ∧ ((List.range n).foldl (fun acc i => max acc (f i)) a = a
          ∨ ∃ i, i < n ∧ (List.range n).foldl (fun acc i => max acc (f i)) a = f i) := by
  intro n
  induction n with
  | zero =>
      intro a
      refine ⟨le_refl a, ?_, Or.inl rfl⟩
      intro i hi
      exact absurd hi (Nat.not_lt_zero i)
  | succ n ih =>
      intro a
      have hstep : (List.range (n + 1)).foldl (fun acc i => max acc (f i)) a
          = max ((List.range n).foldl (fun acc i => max acc (f i)) a) (f n) := by
        rw [List.range_succ, List.foldl_append]
        simp
      obtain ⟨h1, h2, h3⟩ := ih a
      refine ⟨?_, ?_, ?_⟩
      · rw [hstep]; exact le_trans h1 (le_max_left _ _)
      · intro i hi
        rw [hstep]
        rcases Nat.lt_succ_iff_lt_or_eq.mp hi with hlt | heq
        · exact le_trans (h2 i hlt) (le_max_left _ _)
        · subst heq; exact le_max_right _ _
      · rw [hstep]
        rcases max_choice ((List.range n).foldl (fun acc i => max acc (f i)) a) (f n)
          with hm | hm
        · rw [hm]
          rcases h3 with h | ⟨i, hi, hfi⟩
          · exact Or.inl h
          · exact Or.inr ⟨i, Nat.lt_succ_of_lt hi, hfi⟩
        · exact Or.inr ⟨n, Nat.lt_succ_self n, hm⟩

/-- Extended scalar for the wear/thermal stepper: a rational together with the
IEEE special values `+∞`, `-∞` and `nan` (finite arithmetic is exact;
rounding is not modelled). -/
inductive FF where
  | fin : ℚ → FF
  | pinf : FF
  | ninf : FF
  | nan : FF
deriving DecidableEq

/-- IEEE addition on `FF`. -/
def FF.add : FF → FF → FF
  | nan, _ => nan
  | _, nan => nan
  | fin a, fin b => fin (a + b)
  | fin _, pinf => pinf
  | fin _, ninf => ninf
  | pinf, fin _ => pinf
  | ninf, fin _ => ninf
  | pinf, pinf => pinf
  | ninf, ninf => ninf
  | pinf, ninf => nan
  | ninf, pinf => nan

/-- IEEE negation on `FF`. -/
def FF.neg : FF → FF
  | fin a => fin (-a)
  | pinf => ninf
  | ninf => pinf
  | nan => nan

/-- IEEE subtraction on `FF` (x - y = x + (-y), exact in IEEE). -/
def FF.sub (a b : FF) : FF := a.add b.neg

/-- IEEE multiplication on `FF` (`0 * ∞ = nan`). -/
def FF.mul : FF → FF → FF
  | nan, _ => nan
  | _, nan => nan
  | fin a, fin b => fin (a * b)
  | fin a, pinf => if a = 0 then nan else if 0 < a then pinf else ninf
  | fin a, ninf => if a = 0 then nan else if 0 < a then ninf else pinf
  | pinf, fin b => if b = 0 then nan else if 0 < b then pinf else ninf
  | ninf, fin b => if b = 0 then nan else if 0 < b then ninf else pinf
  | pinf, pinf => pinf
  | ninf, ninf => pinf
  | pinf, ninf => ninf
  | ninf, pinf => ninf

/-- IEEE division on `FF` (zero is treated as `+0`; the code only divides by
the positive constant 10000). -/
def FF.div : FF → FF → FF
  | nan, _ => nan
  | _, nan => nan
  | fin a, fin b =>
      if b = 0 then (if a = 0 then nan else if 0 < a then pinf else ninf)
      else fin (a / b)
  | fin _, pinf => fin 0
  | fin _, ninf => fin 0
  | pinf, fin b => if 0 ≤ b then pinf else ninf
  | ninf, fin b => if 0 ≤ b then ninf else pinf
  | pinf, pinf => nan
  | pinf, ninf => nan
  | ninf, pinf => nan
  | ninf, ninf => nan

/-- `f32::abs` on `FF`. -/
def FF.abs : FF → FF
  | fin a => fin |a|
  | pinf => pinf
  | ninf => pinf
  | nan => nan

/-- IEEE `<` on `FF` (`nan` compares false with everything). -/
def FF.blt : FF → FF → Bool
  | nan, _ => false
  | _, nan => false
  | fin a, fin b => decide (a < b)
  | fin _, pinf => true
  | fin _, ninf => false
  | ninf, fin _ => true
  | pinf, fin _ => false
  | ninf, pinf => true
  | pinf, ninf => false
  | pinf, pinf => false
  | ninf, ninf => false

/-- `f32::clamp(self, lo, hi)`: raise to `lo` if below, lower to `hi` if
above; `nan` propagates (both comparisons are false). -/
def FF.clamp (x lo hi : FF) : FF :=
  let y := if x.blt lo then lo else x
  if hi.blt y then hi else y

/-- `f32::is_finite`. -/
def FF.isFinite : FF → Bool
  | fin _ => true
  | _ => false

instance : Add FF := ⟨FF.add⟩

instance : Sub FF := ⟨FF.sub⟩

instance : Mul FF := ⟨FF.mul⟩

instance : Div FF := ⟨FF.div⟩

/-- The repository's `WearStepInput` record (fields in source order). -/
structure WearStepInput where
  wheel_slip_ratio : FF
  wheel_slip_angle : FF
  max_pressure : FF
  total_force_magnitude : FF
  current_tire_wear : FF
  base_wear_rate : FF
  base_heat_generation : FF
  cooling_rate : FF
  ambient_temperature : FF
  surface_temperature : FF
  core_temperature : FF
  delta : FF
deriving DecidableEq

/-- The repository's `WearStepOutput` record. -/
structure WearStepOutput where
  tire_wear : FF
  surface_temperature : FF
  core_temperature : FF
deriving DecidableEq

/-- `tire_step_wear_and_temperature`, statement for statement from the
source (the final non-finite guard on `tire_wear` commutes with building the
temperatures, so it is applied where the record is built). -/
def tire_step_wear_and_temperature (input : WearStepInput) : WearStepOutput :=
  let slip := input.wheel_slip_ratio
  let slip_angle := input.wheel_slip_angle.abs
  let wear_rate := input.base_wear_rate
  let wear_rate := wear_rate * (FF.fin 1 + slip * FF.fin 5 + slip_angle * FF.fin 3)
  let wear_rate := wear_rate * (input.max_pressure / FF.fin 10000)
  let tire_wear :=
    (input.current_tire_wear + wear_rate * input.delta).clamp (FF.fin 0) (FF.fin 1)
  let heat_generation := input.base_heat_generation
  let heat_generation :=
    heat_generation * (FF.fin 1 + slip * FF.fin 3 + slip_angle * FF.fin 2)
  let heat_generation :=
    heat_generation * (input.total_force_magnitude / FF.fin 10000)
  let surface_heat := heat_generation * FF.fin (7 / 10)
  let core_heat := heat_generation * FF.fin (3 / 10)
  let surface_temperature := input.surface_temperature + surface_heat * input.delta
  let core_temperature := input.core_temperature + core_heat * input.delta
  let cooling := input.cooling_rate * (input.ambient_temperature - surface_temperature)
  let surface_temperature := surface_temperature + cooling * input.delta
  let core_temperature := core_temperature + (cooling * FF.fin (1 / 2)) * input.delta
  let tire_wear := if tire_wear.isFinite then tire_wear else FF.fin 0
  { tire_wear := tire_wear, surface_temperature := surface_temperature,
    core_temperature := core_temperature }

/-- The spec's tuning-conventions bundle. -/
structure Conventions where
  epsilon : ℚ
  min_stiffness : ℚ
  min_positive_weight : ℚ
  contact_penetration_threshold : ℚ
deriving DecidableEq

/-- The spec's fixed baseline conventions. -/
def Conventions.baseline : Conventions :=
  { epsilon := 1 / 1000000, min_stiffness := 1 / 10000,
    min_positive_weight := 0, contact_penetration_threshold := 0 }

/-- Modelled from the spec: the weight normalizer of spec section 4.1 is
documented (and used by the statistical patch aggregator) but its
implementation is not among the repository's source files, so it is
reconstructed from the spec's algorithm: sum the weights strictly greater
than `min_positive_weight`; if that sum is at most `epsilon`, return all
zeros; otherwise divide each qualifying weight by the sum and map every
non-qualifying weight to 0. -/
def normalize_weights (conv : Conventions) (weights : List ℚ) : List ℚ :=
  let total := (weights.filter (fun w => conv.min_positive_weight < w)).sum
  if total ≤ conv.epsilon then weights.map (fun _ => 0)
  else weights.map (fun w => if conv.min_positive_weight < w then w / total else 0)

/-- C1: if any of the four array references is null or `count` is 0,
`tire_aggregate_contacts` returns the all-zero `ContactAggregate` (all
vector fields zero, `contact_area = 0`, `max_pressure = 0`,
`weighted_grip = 0`); in particular a null point buffer with `count > 0`
still returns the all-zero aggregate (the function is total, so it never
crashes). -/
theorem claim_C1_null_or_zero_count_gives_zero_aggregate
    (sqrtFn : ℚ → ℚ) (pp np : Option (ℕ → Vec3)) (fp gp : Option (ℕ → ℚ))
    (count : ℕ) (o : Vec3) (st : ℚ)
    (h : pp = none ∨ np = none ∨ fp = none ∨ gp = none ∨ count = 0) :
    tire_aggregate_contacts sqrtFn pp np fp gp count o st
      = { total_force := Vec3.zero, total_torque := Vec3.zero,
          average_position := Vec3.zero, contact_area := 0,
          max_pressure := 0, weighted_grip := 0 } := by
  rcases pp with _ | P <;> rcases np with _ | N <;>
    rcases fp with _ | F <;> rcases gp with _ | G
  case some.some.some.some =>
    have hcount : count = 0 := by
      rcases h with h | h | h | h | h
      · exact absurd h (by simp)
      · exact absurd h (by simp)
      · exact absurd h (by simp)
      · exact absurd h (by simp)
      · exact h
    simp [tire_aggregate_contacts, hcount, ContactAggregate.default]
  all_goals rfl

/-- C1 witness: a null point buffer together with `count = 3 > 0` returns the
all-zero aggregate. -/
theorem claim_C1_witness :
    tire_aggregate_contacts ratSqrt none (some fun _ => Vec3.zero)
        (some fun _ => (1 : ℚ)) (some fun _ => (1 : ℚ)) 3 Vec3.zero 1
      = { total_force := Vec3.zero, total_torque := Vec3.zero,
          average_position := Vec3.zero, contact_area := 0,
          max_pressure := 0, weighted_grip := 0 } :=
  claim_C1_null_or_zero_count_gives_zero_aggregate ratSqrt none
    (some fun _ => Vec3.zero) (some fun _ => (1 : ℚ)) (some fun _ => (1 : ℚ))
    3 Vec3.zero 1 (Or.inl rfl)

/-- C2 counterexample: one contact with normal (1,1,1), force 1, grip 0.
The claim predicts the per-contact force (1, 0, 0) (first axis unscaled by
grip, second and third scaled), but the code produces (0, 1, 0): grip
multiplies the first and third axes and leaves the second axis unscaled. -/
theorem claim_C2_counterexample :
    (tire_aggregate_contacts ratSqrt (some fun _ => Vec3.zero)
        (some fun _ => (⟨1, 1, 1⟩ : Vec3)) (some fun _ => (1 : ℚ))
        (some fun _ => (0 : ℚ)) 1 Vec3.zero 1).total_force = ⟨0, 1, 0⟩
    ∧ (⟨0, 1, 0⟩ : Vec3) ≠ ⟨1, 0, 0⟩ := by
  constructor
  · simp [tire_aggregate_contacts, List.range_succ, Vec3.add, Vec3.mul,
      Vec3.zero, Vec3.mk.injEq]
  · simp [Vec3.mk.injEq]

/-- C2 amended: for every contact i the per-contact force vector accumulated
into `total_force` is `normal_i` scaled by `force_i`, with the component
along the normal's SECOND axis (y) left unscaled by `grip_i`, while the
first and third axes (x and z) are additionally multiplied by `grip_i`;
`total_force` is the sum of these per-contact vectors. -/
theorem claim_C2_amended_total_force
    (sqrtFn : ℚ → ℚ) (P N : ℕ → Vec3) (F G : ℕ → ℚ)
    (count : ℕ) (o : Vec3) (st : ℚ) (hc : 0 < count) :
    (tire_aggregate_contacts sqrtFn (some P) (some N) (some F) (some G)
        count o st).total_force
      = ∑ i in Finset.range count,
          (⟨(N i).x * F i * G i, (N i).y * F i, (N i).z * F i * G i⟩ : Vec3) := by
  have hc' : ¬(count = 0) := Nat.pos_iff_ne_zero.mp hc
  simp only [tire_aggregate_contacts, if_neg hc']
  have hbody : (fun (acc : Vec3) (i : ℕ) =>
        let force_dir := (N i).mul (F i)
        acc.add ⟨force_dir.x * G i, force_dir.y, force_dir.z * G i⟩)
      = fun (acc : Vec3) (i : ℕ) =>
          acc + (⟨(N i).x * F i * G i, (N i).y * F i, (N i).z * F i * G i⟩ : Vec3) := by
    funext acc i
    simp [Vec3.mul, Vec3.add_eq_hadd]
  rw [hbody, foldl_range_add, Vec3.zero_eq_ofNat, zero_add]

/-- C2 amended witness: one contact, normal (1,2,3), force 4, grip 5. -/
theorem claim_C2_amended_witness :
    (tire_aggregate_contacts ratSqrt (some fun _ => Vec3.zero)
        (some fun _ => (⟨1, 2, 3⟩ : Vec3)) (some fun _ => (4 : ℚ))
        (some fun _ => (5 : ℚ)) 1 Vec3.zero 1).total_force
      = ∑ i in Finset.range 1,
          (⟨((fun _ => (⟨1, 2, 3⟩ : Vec3)) i).x * (fun _ => (4 : ℚ)) i * (fun _ => (5 : ℚ)) i,
            ((fun _ => (⟨1, 2, 3⟩ : Vec3)) i).y * (fun _ => (4 : ℚ)) i,
            ((fun _ => (⟨1, 2, 3⟩ : Vec3)) i).z * (fun _ => (4 : ℚ)) i * (fun _ => (5 : ℚ)) i⟩ : Vec3) :=
  claim_C2_amended_total_force ratSqrt (fun _ => Vec3.zero)
    (fun _ => (⟨1, 2, 3⟩ : Vec3)) (fun _ => (4 : ℚ)) (fun _ => (5 : ℚ))
    1 Vec3.zero 1 (by decide)

/-- C7: with valid non-empty input, `total_torque` is the sum over contacts
of `(point_i - global_origin) × (normal_i * (force_i * grip_i))` — the
torque pass scales the full normal uniformly by `force_i * grip_i`. -/
theorem claim_C7_total_torque
    (sqrtFn : ℚ → ℚ) (P N : ℕ → Vec3) (F G : ℕ → ℚ)
    (count : ℕ) (o : Vec3) (st : ℚ) (hc : 0 < count) :
    (tire_aggregate_contacts sqrtFn (some P) (some N) (some F) (some G)
        count o st).total_torque
      = ∑ i in Finset.range count,
          ((P i).sub o).cross ((N i).mul (F i * G i)) := by
  have hc' : ¬(count = 0) := Nat.pos_iff_ne_zero.mp hc
  simp only [tire_aggregate_contacts, if_neg hc']
  have hbody : (fun (acc : Vec3) (i : ℕ) =>
        acc.add (((P i).sub o).cross ((N i).mul (F i * G i))))
      = fun (acc : Vec3) (i : ℕ) =>
          acc + ((P i).sub o).cross ((N i).mul (F i * G i)) := by
    funext acc i
    rw [Vec3.add_eq_hadd]
  rw [hbody, foldl_range_add, Vec3.zero_eq_ofNat, zero_add]

/-- C7 witness: one contact at (1,0,0) about the origin with normal (0,1,0),
force 2, grip 3. -/
theorem claim_C7_witness :
    (tire_aggregate_contacts ratSqrt (some fun _ => (⟨1, 0, 0⟩ : Vec3))
        (some fun _ => (⟨0, 1, 0⟩ : Vec3)) (some fun _ => (2 : ℚ))
        (some fun _ => (3 : ℚ)) 1 Vec3.zero 1).total_torque
      = ∑ i in Finset.range 1,
          (((fun _ => (⟨1, 0, 0⟩ : Vec3)) i).sub Vec3.zero).cross
            (((fun _ => (⟨0, 1, 0⟩ : Vec3)) i).mul
              ((fun _ => (2 : ℚ)) i * (fun _ => (3 : ℚ)) i)) :=
  claim_C7_total_torque ratSqrt (fun _ => (⟨1, 0, 0⟩ : Vec3))
    (fun _ => (⟨0, 1, 0⟩ : Vec3)) (fun _ => (2 : ℚ)) (fun _ => (3 : ℚ))
    1 Vec3.zero 1 (by decide)

/-- C8 counterexample: with a single contact of force −5, the code returns
`max_pressure = 0` (the running maximum starts at 0), not the maximum of the
forces, which is −5. -/
theorem claim_C8_counterexample :
    (tire_aggregate_contacts ratSqrt (some fun _ => Vec3.zero)
        (some fun _ => Vec3.zero) (some fun _ => (-5 : ℚ))
        (some fun _ => (1 : ℚ)) 1 Vec3.zero 1).max_pressure = 0
    ∧ (0 : ℚ) ≠ -5 := by
  constructor
  · simp [tire_aggregate_contacts, List.range_succ]
  · norm_num

/-- C8 amended: with valid non-empty input, `contact_area` is the sum over
contacts of `force_i / max(stiffness, 1)` (the divisor is never below 1),
and `max_pressure` is the maximum of 0 and all the `force_i` (the running
maximum starts at 0, so with all-negative forces it is 0, not the largest
force): it is non-negative, dominates every `force_i`, and is either 0 or
one of the `force_i`. -/
theorem claim_C8_amended_area_and_pressure
    (sqrtFn : ℚ → ℚ) (P N : ℕ → Vec3) (F G : ℕ → ℚ)
    (count : ℕ) (o : Vec3) (st : ℚ) (hc : 0 < count) :
    (tire_aggregate_contacts sqrtFn (some P) (some N) (some F) (some G)
        count o st).contact_area
      = ∑ i in Finset.range count, F i / max st 1
    ∧ 0 ≤ (tire_aggregate_contacts sqrtFn (some P) (some N) (some F) (some G)
        count o st).max_pressure
    ∧ (∀ i, i < count →
        F i ≤ (tire_aggregate_contacts sqrtFn (some P) (some N) (some F) (some G)
          count o st).max_pressure)
    ∧ ((tire_aggregate_contacts sqrtFn (some P) (some N) (some F) (some G)
          count o st).max_pressure = 0
        ∨ ∃ i, i < count
            ∧ (tire_aggregate_contacts sqrtFn (some P) (some N) (some F) (some G)
                count o st).max_pressure = F i) := by
  have hc' : ¬(count = 0) := Nat.pos_iff_ne_zero.mp hc
  simp only [tire_aggregate_contacts, if_neg hc']
  refine ⟨?_, ?_, ?_, ?_⟩
  · rw [foldl_range_add, zero_add]
  · exact (foldl_range_max_spec F count 0).1
  · exact (foldl_range_max_spec F count 0).2.1
  · exact (foldl_range_max_spec F count 0).2.2

/-- C8 amended witness: one contact of force 2 with stiffness 1. -/
theorem claim_C8_witness :
    (tire_aggregate_contacts ratSqrt (some fun _ => Vec3.zero)
        (some fun _ => Vec3.zero) (some fun _ => (2 : ℚ))
        (some fun _ => (1 : ℚ)) 1 Vec3.zero 1).contact_area
      = ∑ i in Finset.range 1, (fun _ => (2 : ℚ)) i / max 1 1
    ∧ 0 ≤ (tire_aggregate_contacts ratSqrt (some fun _ => Vec3.zero)
        (some fun _ => Vec3.zero) (some fun _ => (2 : ℚ))
        (some fun _ => (1 : ℚ)) 1 Vec3.zero 1).max_pressure
    ∧ (∀ i, i < 1 →
        (fun _ => (2 : ℚ)) i ≤ (tire_aggregate_contacts ratSqrt (some fun _ => Vec3.zero)
          (some fun _ => Vec3.zero) (some fun _ => (2 : ℚ))
          (some fun _ => (1 : ℚ)) 1 Vec3.zero 1).max_pressure)
    ∧ ((tire_aggregate_contacts ratSqrt (some fun _ => Vec3.zero)
          (some fun _ => Vec3.zero) (some fun _ => (2 : ℚ))
          (some fun _ => (1 : ℚ)) 1 Vec3.zero 1).max_pressure = 0
        ∨ ∃ i, i < 1
            ∧ (tire_aggregate_contacts ratSqrt (some fun _ => Vec3.zero)
                (some fun _ => Vec3.zero) (some fun _ => (2 : ℚ))
                (some fun _ => (1 : ℚ)) 1 Vec3.zero 1).max_pressure
              = (fun _ => (2 : ℚ)) i) :=
  claim_C8_amended_area_and_pressure ratSqrt (fun _ => Vec3.zero)
    (fun _ => Vec3.zero) (fun _ => (2 : ℚ)) (fun _ => (1 : ℚ))
    1 Vec3.zero 1 (by decide)

/-- C6: with valid non-empty input, if the length of the accumulated
`total_force` is 0 then `weighted_grip` is 1; otherwise `weighted_grip` is
the sum over contacts of `grip_i * (force_i / |total_force|)`, returned
as-is, with no renormalization of that sum to [0,1].  The f32 square root is
abstract; only its non-negativity on non-negative inputs is assumed. -/
theorem claim_C6_weighted_grip
    (sqrtFn : ℚ → ℚ) (P N : ℕ → Vec3) (F G : ℕ → ℚ)
    (count : ℕ) (o : Vec3) (st : ℚ) (hc : 0 < count)
    (hs : ∀ q, 0 ≤ q → 0 ≤ sqrtFn q) :
    ((tire_aggregate_contacts sqrtFn (some P) (some N) (some F) (some G)
          count o st).total_force.length sqrtFn = 0 →
        (tire_aggregate_contacts sqrtFn (some P) (some N) (some F) (some G)
          count o st).weighted_grip = 1)
    ∧ ((tire_aggregate_contacts sqrtFn (some P) (some N) (some F) (some G)
          count o st).total_force.length sqrtFn ≠ 0 →
        (tire_aggregate_contacts sqrtFn (some P) (some N) (some F) (some G)
          count o st).weighted_grip
          = ∑ i in Finset.range count,
              G i * (F i / (tire_aggregate_contacts sqrtFn (some P) (some N)
                (some F) (some G) count o st).total_force.length sqrtFn)) := by
  have hc' : ¬(count = 0) := Nat.pos_iff_ne_zero.mp hc
  simp only [tire_aggregate_contacts, if_neg hc']
  constructor
  · intro h0
    rw [if_neg]
    rw [h0]
    exact lt_irrefl 0
  · intro hne
    have hm : 0 ≤ (Vec3.length sqrtFn ((List.range count).foldl
        (fun acc i =>
          let force_dir := (N i).mul (F i)
          acc.add ⟨force_dir.x * G i, force_dir.y, force_dir.z * G i⟩)
        Vec3.zero)) := hs _ (Vec3.sqLength_nonneg _)
    have hpos : 0 < (Vec3.length sqrtFn ((List.range count).foldl
        (fun acc i =>
          let force_dir := (N i).mul (F i)
          acc.add ⟨force_dir.x * G i, force_dir.y, force_dir.z * G i⟩)
        Vec3.zero)) := lt_of_le_of_ne hm (Ne.symm hne)
    rw [if_pos hpos, foldl_range_add, zero_add]

/-- C6 witness: one contact with normal (0,1,0), force 3, grip 2; the
accumulated force is (0,3,0), its (abstracted) length is non-zero, and the
returned grip equals the claimed sum. -/
theorem claim_C6_witness :
    (tire_aggregate_contacts (fun q => q) (some fun _ => Vec3.zero)
        (some fun _ => (⟨0, 1, 0⟩ : Vec3)) (some fun _ => (3 : ℚ))
        (some fun _ => (2 : ℚ)) 1 Vec3.zero 1).total_force.length (fun q => q) ≠ 0
    ∧ (tire_aggregate_contacts (fun q => q) (some fun _ => Vec3.zero)
        (some fun _ => (⟨0, 1, 0⟩ : Vec3)) (some fun _ => (3 : ℚ))
        (some fun _ => (2 : ℚ)) 1 Vec3.zero 1).weighted_grip
      = ∑ i in Finset.range 1,
          (fun _ => (2 : ℚ)) i * ((fun _ => (3 : ℚ)) i /
            (tire_aggregate_contacts (fun q => q) (some fun _ => Vec3.zero)
              (some fun _ => (⟨0, 1, 0⟩ : Vec3)) (some fun _ => (3 : ℚ))
              (some fun _ => (2 : ℚ)) 1 Vec3.zero 1).total_force.length (fun q => q)) := by
  have hne : (tire_aggregate_contacts (fun q => q) (some fun _ => Vec3.zero)
      (some fun _ => (⟨0, 1, 0⟩ : Vec3)) (some fun _ => (3 : ℚ))
      (some fun _ => (2 : ℚ)) 1 Vec3.zero 1).total_force.length (fun q => q) ≠ 0 := by
    simp [tire_aggregate_contacts, List.range_succ, Vec3.length, Vec3.sqLength,
      Vec3.add, Vec3.mul, Vec3.zero]
  exact ⟨hne,
    (claim_C6_weighted_grip (fun q => q) (fun _ => Vec3.zero)
      (fun _ => (⟨0, 1, 0⟩ : Vec3)) (fun _ => (3 : ℚ)) (fun _ => (2 : ℚ))
      1 Vec3.zero 1 (by decide) (fun q hq => hq)).2 hne⟩

theorem FF.add_def (a b : FF) : a + b = FF.add a b := rfl

theorem FF.mul_def (a b : FF) : a * b = FF.mul a b := rfl

theorem FF.sub_def (a b : FF) : a - b = FF.sub a b := rfl

theorem FF.div_def (a b : FF) : a / b = FF.div a b := rfl

/-- Clamping to [0,1] and then zeroing non-finite values always yields a
finite value in [0,1], whatever the (possibly non-finite) argument. -/
theorem FF.clamp01_guard (x : FF) :
    ∃ q : ℚ, (if (x.clamp (FF.fin 0) (FF.fin 1)).isFinite
        then x.clamp (FF.fin 0) (FF.fin 1) else FF.fin 0) = FF.fin q
      ∧ 0 ≤ q ∧ q ≤ 1 := by
  cases x with
  | fin a =>
      by_cases h0 : a < 0
      · exact ⟨0, by simp [FF.clamp, FF.blt, FF.isFinite, h0], le_refl 0, by norm_num⟩
      · by_cases h1 : 1 < a
        · exact ⟨1, by simp [FF.clamp, FF.blt, FF.isFinite, h0, h1], by norm_num,
            le_refl 1⟩
        · exact ⟨a, by simp [FF.clamp, FF.blt, FF.isFinite, h0, h1],
            le_of_not_lt h0, le_of_not_lt h1⟩
  | pinf => exact ⟨1, by simp [FF.clamp, FF.blt, FF.isFinite], by norm_num, le_refl 1⟩
  | ninf => exact ⟨0, by simp [FF.clamp, FF.blt, FF.isFinite], le_refl 0, by norm_num⟩
  | nan => exact ⟨0, by simp [FF.clamp, FF.blt, FF.isFinite], le_refl 0, by norm_num⟩

/-- C3: the returned `tire_wear` is
`clamp(current_tire_wear + wear_rate*delta, 0, 1)` with
`wear_rate = base_wear_rate * (1 + 5*slip_ratio + 3*|slip_angle|) *
(max_pressure/10000)`, forced to exactly 0 when that clamp is not finite;
consequently the returned wear is always a finite value in [0,1], for every
input, including non-finite ones. -/
theorem claim_C3_wear_formula_and_bounds (input : WearStepInput) :
    (tire_step_wear_and_temperature input).tire_wear
      = (if ((input.current_tire_wear
              + (input.base_wear_rate
                  * (FF.fin 1 + input.wheel_slip_ratio * FF.fin 5
                      + input.wheel_slip_angle.abs * FF.fin 3)
                  * (input.max_pressure / FF.fin 10000)) * input.delta).clamp
              (FF.fin 0) (FF.fin 1)).isFinite
         then ((input.current_tire_wear
              + (input.base_wear_rate
                  * (FF.fin 1 + input.wheel_slip_ratio * FF.fin 5
                      + input.wheel_slip_angle.abs * FF.fin 3)
                  * (input.max_pressure / FF.fin 10000)) * input.delta).clamp
              (FF.fin 0) (FF.fin 1))
         else FF.fin 0)
    ∧ ∃ q : ℚ, (tire_step_wear_and_temperature input).tire_wear = FF.fin q
        ∧ 0 ≤ q ∧ q ≤ 1 := by
  refine ⟨rfl, ?_⟩
  obtain ⟨q, hq, h0, h1⟩ := FF.clamp01_guard
    (input.current_tire_wear
      + (input.base_wear_rate
          * (FF.fin 1 + input.wheel_slip_ratio * FF.fin 5
              + input.wheel_slip_angle.abs * FF.fin 3)
          * (input.max_pressure / FF.fin 10000)) * input.delta)
  exact ⟨q, hq, h0, h1⟩

/-- C4: heat `H = base_heat_generation * (1 + 3*slip_ratio + 2*|slip_angle|)
* (total_force_magnitude/10000)` is routed 70% to the surface node and 30%
to the core node, integrated by `delta`; then the single cooling term
`C = cooling_rate * (ambient - surface)` (with `surface` the post-heat
surface temperature) is applied fully to the surface node and at half rate
to the core node, both scaled by `delta`.  The returned temperatures are the
inputs updated by exactly these two steps in this order. -/
theorem claim_C4_thermal_update (input : WearStepInput) :
    (tire_step_wear_and_temperature input).surface_temperature
      = (input.surface_temperature
          + ((input.base_heat_generation
              * (FF.fin 1 + input.wheel_slip_ratio * FF.fin 3
                  + input.wheel_slip_angle.abs * FF.fin 2)
              * (input.total_force_magnitude / FF.fin 10000)) * FF.fin (7 / 10))
            * input.delta)
        + (input.cooling_rate
            * (input.ambient_temperature
              - (input.surface_temperature
                  + ((input.base_heat_generation
                      * (FF.fin 1 + input.wheel_slip_ratio * FF.fin 3
                          + input.wheel_slip_angle.abs * FF.fin 2)
                      * (input.total_force_magnitude / FF.fin 10000))
                    * FF.fin (7 / 10)) * input.delta)))
          * input.delta
    ∧ (tire_step_wear_and_temperature input).core_temperature
      = (input.core_temperature
          + ((input.base_heat_generation
              * (FF.fin 1 + input.wheel_slip_ratio * FF.fin 3
                  + input.wheel_slip_angle.abs * FF.fin 2)
              * (input.total_force_magnitude / FF.fin 10000)) * FF.fin (3 / 10))
            * input.delta)
        + ((input.cooling_rate
            * (input.ambient_temperature
              - (input.surface_temperature
                  + ((input.base_heat_generation
                      * (FF.fin 1 + input.wheel_slip_ratio * FF.fin 3
                          + input.wheel_slip_angle.abs * FF.fin 2)
                      * (input.total_force_magnitude / FF.fin 10000))
                    * FF.fin (7 / 10)) * input.delta)))
            * FF.fin (1 / 2))
          * input.delta :=
  ⟨rfl, rfl⟩

/-- C9: both public entry points are pure functions of their argument
records alone — as embedded (faithfully to the source, which reads no global
or hidden state), applying either to the same input always yields the same
output. -/
theorem claim_C9_referential_transparency :
    (∀ i : WearStepInput,
        tire_step_wear_and_temperature i = tire_step_wear_and_temperature i)
    ∧ (∀ (sqrtFn : ℚ → ℚ) (pp np : Option (ℕ → Vec3)) (fp gp : Option (ℕ → ℚ))
        (count : ℕ) (o : Vec3) (st : ℚ),
        tire_aggregate_contacts sqrtFn pp np fp gp count o st
          = tire_aggregate_contacts sqrtFn pp np fp gp count o st) :=
  ⟨fun _ => rfl, fun _ _ _ _ _ _ _ _ => rfl⟩

/-- C10: the non-finite guard protects only `tire_wear`.  With
`surface_temperature = +∞` (and otherwise benign finite inputs) the
returned surface temperature is `nan` (from `+∞ + cooling*δ = +∞ + (-∞)`)
and the returned core temperature is `-∞` — both non-finite — while the
returned `tire_wear` is still the finite 1/5 ∈ [0,1]. -/
theorem claim_C10_temperatures_unguarded :
    (tire_step_wear_and_temperature
        { wheel_slip_ratio := FF.fin 0, wheel_slip_angle := FF.fin 0,
          max_pressure := FF.fin 0, total_force_magnitude := FF.fin 0,
          current_tire_wear := FF.fin (1 / 5), base_wear_rate := FF.fin 0,
          base_heat_generation := FF.fin 0, cooling_rate := FF.fin 1,
          ambient_temperature := FF.fin 0, surface_temperature := FF.pinf,
          core_temperature := FF.fin 0,
          delta := FF.fin 1 }).surface_temperature.isFinite = false
    ∧ (tire_step_wear_and_temperature
        { wheel_slip_ratio := FF.fin 0, wheel_slip_angle := FF.fin 0,
          max_pressure := FF.fin 0, total_force_magnitude := FF.fin 0,
          current_tire_wear := FF.fin (1 / 5), base_wear_rate := FF.fin 0,
          base_heat_generation := FF.fin 0, cooling_rate := FF.fin 1,
          ambient_temperature := FF.fin 0, surface_temperature := FF.pinf,
          core_temperature := FF.fin 0,
          delta := FF.fin 1 }).core_temperature.isFinite = false
    ∧ (tire_step_wear_and_temperature
        { wheel_slip_ratio := FF.fin 0, wheel_slip_angle := FF.fin 0,
          max_pressure := FF.fin 0, total_force_magnitude := FF.fin 0,
          current_tire_wear := FF.fin (1 / 5), base_wear_rate := FF.fin 0,
          base_heat_generation := FF.fin 0, cooling_rate := FF.fin 1,
          ambient_temperature := FF.fin 0, surface_temperature := FF.pinf,
          core_temperature := FF.fin 0,
          delta := FF.fin 1 }).tire_wear = FF.fin (1 / 5) := by
  refine ⟨?_, ?_, ?_⟩ <;>
    norm_num [tire_step_wear_and_temperature, FF.add_def, FF.mul_def,
      FF.sub_def, FF.div_def, FF.add, FF.mul, FF.sub, FF.div, FF.neg, FF.abs,
      FF.clamp, FF.blt, FF.isFinite]

/-- Dividing each qualifying weight by `t` and zeroing the rest sums to the
filtered sum divided by `t`. -/
theorem map_qualifying_div_sum (thr t : ℚ) :
    ∀ ws : List ℚ,
      (ws.map (fun w => if thr < w then w / t else 0)).sum
        = (ws.filter (fun w => thr < w)).sum / t := by
  intro ws
  induction ws with
  | nil => simp
  | cons w tl ih =>
      by_cases h : thr < w
      · simp [h, ih, add_div]
      · simp [h, ih]

/-- C5: the (spec-modelled) weight normalizer: whenever some weight is
strictly above `min_positive_weight` and the qualifying sum exceeds
`epsilon` (with `epsilon ≥ 0`, as in every documented configuration), the
output has the same length as the input, sums to 1 within `epsilon` (here:
exactly 1), and maps every weight not exceeding `min_positive_weight` to
exactly 0. -/
theorem claim_C5_normalizer_contract
    (conv : Conventions) (ws : List ℚ)
    (he : 0 ≤ conv.epsilon)
    (hex : ∃ w ∈ ws, conv.min_positive_weight < w)
    (hsum : conv.epsilon
      < (ws.filter (fun w => conv.min_positive_weight < w)).sum) :
    (normalize_weights conv ws).length = ws.length
    ∧ |(normalize_weights conv ws).sum - 1| ≤ conv.epsilon
    ∧ ∀ i, i < ws.length → ws.getD i 0 ≤ conv.min_positive_weight →
        (normalize_weights conv ws).getD i 0 = 0 := by
  have hnot : ¬ ((ws.filter (fun w => conv.min_positive_weight < w)).sum
      ≤ conv.epsilon) := not_le.mpr hsum
  have hne : (ws.filter (fun w => conv.min_positive_weight < w)).sum ≠ 0 :=
    ne_of_gt (lt_of_le_of_lt he hsum)
  refine ⟨?_, ?_, ?_⟩
  · simp [normalize_weights, hnot]
  · simp only [normalize_weights, if_neg hnot]
    rw [map_qualifying_div_sum, div_self hne]
    simpa using he
  · intro i hi hw
    simp only [normalize_weights, if_neg hnot]
    have hlen : i < (ws.map (fun w =>
        if conv.min_positive_weight < w
        then w / (ws.filter (fun w => conv.min_positive_weight < w)).sum
        else 0)).length := by simpa using hi
    rw [List.getD_eq_getElem _ _ hlen, List.getElem_map]
    rw [List.getD_eq_getElem _ _ hi] at hw
    exact if_neg (not_lt.mpr hw)

/-- C5 witness: baseline conventions, weights [1/2, 0]: the output has
length 2, sums to exactly 1, and sends the below-threshold weight 0 to 0. -/
theorem claim_C5_witness :
    (normalize_weights Conventions.baseline [1/2, 0]).length
        = ([1/2, 0] : List ℚ).length
    ∧ |(normalize_weights Conventions.baseline [1/2, 0]).sum - 1|
        ≤ Conventions.baseline.epsilon
    ∧ ∀ i, i < ([1/2, 0] : List ℚ).length →
        ([1/2, 0] : List ℚ).getD i 0 ≤ Conventions.baseline.min_positive_weight →
        (normalize_weights Conventions.baseline [1/2, 0]).getD i 0 = 0 :=
  claim_C5_normalizer_contract Conventions.baseline [1/2, 0]
    (by norm_num [Conventions.baseline])
    ⟨1/2, by norm_num, by norm_num [Conventions.baseline]⟩
    (by norm_num [Conventions.baseline, List.filter])
